import Mathlib

/-!
Verification of the apartment-listing scraper (`housing.py`).

The source program is embedded shallowly:

* HTML documents are modelled by `Node`, a first-child / next-sibling tree
  (the standard DOM encoding); `BeautifulSoup` operations (`find`,
  `find_all`, `.text`, `.contents`, `.parent`, `find_previous_sibling`) are
  modelled as structural traversals of that tree in document order.
* Python string operations used by the source (`str.strip`, `str.lower`,
  `in` (substring), `str.startswith`, `'sep'.join`) are modelled on
  `List Char` so that every definition evaluates by kernel reduction.
* Network responses are explicit parameters: a page fetch is a function
  from the page number to its parsed listing cards (or an exception,
  modelled with `Except`), the Yelp suggestion response and the Google
  places response are structured values mirroring the JSON fields the
  source reads.
* Thread pools: each multi-item operation submits one deterministic task
  per item.  The order in which tasks happen to finish is passed in as an
  explicit `completionOrder` argument so that claims about completion
  order can be stated; joining is modelled exactly the way the source
  joins (`Future.result()` in iteration order, or `as_completed`).
* Python truthiness of `bs4` tags (a tag with no contents is falsy) and of
  strings (the empty string is falsy) is modelled by `pyTruthy`;
  `None` interpolated into an f-string renders as the text `None`
  (`pyStr`).
-/

namespace Housing

/-! ### Python string primitives -/

/-- Python `str(x)` for an optional string field as interpolated by an
f-string: `None` renders as the text `None`. -/
def pyStr : Option String → String
  | none => "None"
  | some s => s

/-- Decides whether `pat` is a prefix of `s` (on character lists). -/
def isPrefixL : List Char → List Char → Bool
  | [], _ => true
  | _ :: _, [] => false
  | a :: as, b :: bs => a = b && isPrefixL as bs

/-- Python substring test `pat in s`, character-list worker. -/
def containsL (pat : List Char) : List Char → Bool
  | [] => isPrefixL pat []
  | c :: rest => isPrefixL pat (c :: rest) || containsL pat rest

/-- Python substring test `pat in s`. -/
def containsSub (s pat : String) : Bool :=
  containsL pat.toList s.toList

/-- Python `s.startswith(pre)`. -/
def pyStartsWith (s pre : String) : Bool :=
  isPrefixL pre.toList s.toList

/-- Decides whether `suf` is a suffix of `s`. -/
def strEndsWith (s suf : String) : Bool :=
  isPrefixL suf.toList.reverse s.toList.reverse

/-- Python `s.strip()` on a character list: drop whitespace from both ends. -/
def pyStripList (cs : List Char) : List Char :=
  ((cs.dropWhile Char.isWhitespace).reverse.dropWhile Char.isWhitespace).reverse

/-- Python `s.strip()`. -/
def pyStrip (s : String) : String :=
  String.mk (pyStripList s.toList)

/-- Python `s.lower()`. -/
def pyLower (s : String) : String :=
  String.mk (s.toList.map Char.toLower)

/-- Python `'sep'.join(parts)`. -/
def pyJoin (sep : String) : List String → String
  | [] => ""
  | x :: xs => xs.foldl (fun acc y => acc ++ sep ++ y) x

/-! ### The DOM model

A `Node` is a first-child / next-sibling tree: `elem name classes attrs
child sib` is an element whose contents start at `child` and whose next
sibling is `sib`; `text s sib` is a `NavigableString`; `nilN` terminates a
sibling chain. -/

inductive Node where
  | nilN : Node
  | text (s : String) (sib : Node) : Node
  | elem (name : String) (classes : List String) (attrs : List (String × String))
      (child : Node) (sib : Node) : Node
deriving DecidableEq

/-- Attribute lookup (`tag.attrs.get` / `tag.attrs[...]`). -/
def lookupAttr : List (String × String) → String → Option String
  | [], _ => none
  | (k, v) :: rest, key => if k = key then some v else lookupAttr rest key

/-- The tag name of an element (empty for non-elements). -/
def elemName : Node → String
  | .elem n _ _ _ _ => n
  | _ => ""

/-- The class list of an element. -/
def elemClasses : Node → List String
  | .elem _ cs _ _ _ => cs
  | _ => []

/-- The attribute list of an element (`tag.attrs`). -/
def elemAttrs : Node → List (String × String)
  | .elem _ _ as _ _ => as
  | _ => []

/-- The first content node of an element (`tag.contents`, head of chain). -/
def elemChild : Node → Node
  | .elem _ _ _ c _ => c
  | _ => .nilN

/-- Concatenation of every string in a sibling chain and its descendants,
in document order. -/
def collectText : Node → String
  | .nilN => ""
  | .text s sib => s ++ collectText sib
  | .elem _ _ _ child sib => collectText child ++ collectText sib

/-- BeautifulSoup `tag.text`: all strings below the node, concatenated. -/
def elemText : Node → String
  | .nilN => ""
  | .text s _ => s
  | .elem _ _ _ child _ => collectText child

/-- BeautifulSoup truthiness: `None` is falsy, a tag is falsy iff it has no
contents (`Tag.__len__`), a `NavigableString` is falsy iff empty. -/
def pyTruthy : Option Node → Bool
  | none => false
  | some .nilN => false
  | some (.text s _) => s ≠ ""
  | some (.elem _ _ _ child _) => child ≠ .nilN

/-- Python `a or b` on two `find` results: the first operand if truthy,
otherwise the second. -/
def pyOrN (a b : Option Node) : Option Node :=
  if pyTruthy a then a else b

/-- All matches of `p` in a sibling chain and its descendants, in document
order (the traversal order of `soup.find_all`). -/
def findAlls (p : Node → Bool) : Node → List Node
  | .nilN => []
  | .text _ sib => findAlls p sib
  | .elem n cs as child sib =>
    (if p (.elem n cs as child sib) then [.elem n cs as child sib] else [])
      ++ findAlls p child ++ findAlls p sib

/-- BeautifulSoup `root.find_all(name, cls)`: every descendant element of
`root` with the given tag name whose multi-valued `class` attribute
contains `cls` (matching of a string against `class` is containment). -/
def findAllCls (root : Node) (nm cls : String) : List Node :=
  findAlls (fun e => elemName e = nm && (elemClasses e).contains cls) (elemChild root)

/-- BeautifulSoup `root.find(name, cls)`: the first such descendant, or
`None`. -/
def findCls (root : Node) (nm cls : String) : Option Node :=
  (findAllCls root nm cls).head?

/-! ### The listing record (`Post` dataclass)

Field order and names follow the `Post` dataclass.  Fields that the source
populates with `None` (review data) or leaves as scraped text are
`Option String` / `String`; numeric JSON values (ratings, counts) are kept
as their textual form, only their presence matters to the program. -/

structure Post where
  yelp_review : Option String
  yelp_rating : Option String
  yelp_link : Option String
  google_review : Option String
  google_rating : Option String
  google_link : Option String
  price : String
  title : String
  location : String
  link : String
deriving DecidableEq

/-! ### `Apartment.get_page` -/

/-- The `or`-chain of `get_price` in `Apartment.get_page`:
`p.find('p', 'property-pricing') or p.find('span', 'property-rents') or
p.find('div', 'price-range')`, with Python truthiness (an empty tag is
falsy and falls through). -/
def price_tag (p : Node) : Option Node :=
  pyOrN (pyOrN (findCls p "p" "property-pricing") (findCls p "span" "property-rents"))
    (findCls p "div" "price-range")

/-- `get_price` from `Apartment.get_page`: the text of the selected price
tag when truthy (else the empty string), then, when a truthy
`p.find('p', 'property-specials')` is present, `price += ' ' +
special.text.strip()`. -/
def get_price (p : Node) : String :=
  let price :=
    match price_tag p with
    | some t => if pyTruthy (some t) then elemText t else ""
    | none => ""
  match findCls p "p" "property-specials" with
  | some sp => if pyTruthy (some sp) then price ++ " " ++ pyStrip (elemText sp) else price
  | none => price

/-- `parse_property` from `Apartment.get_page`.  A missing title tag or
link tag raises `AttributeError` (`None.text` / `None.attrs`), a link tag
without `href` raises `KeyError` (`attrs['href']`); those exceptions are
what the surrounding `try` swallows.  The address is
`', '.join((x.text or '').strip() for x in p.find_all('div',
'property-address'))` (`x.text or ''` is the identity here since `.text`
is already a string). -/
def parse_property (p : Node) : Except String Post :=
  match pyOrN (findCls p "div" "property-title") (findCls p "p" "property-title") with
  | none => .error "AttributeError"
  | some t =>
    match findCls p "a" "property-link" with
    | none => .error "AttributeError"
    | some a =>
      match lookupAttr (elemAttrs a) "href" with
      | none => .error "KeyError"
      | some link =>
        .ok ⟨none, none, none, none, none, none, get_price p, elemText t,
          pyJoin ", " ((findAllCls p "div" "property-address").map (fun x => pyStrip (elemText x))),
          link⟩

/-- `Apartment.get_page`, given the already-fetched page markup: collect
the `article.placard` cards and parse each one, logging and skipping any
card whose parse raises (`try ... except ... pass`). -/
def get_page (markup : Node) : List Post :=
  (findAllCls markup "article" "placard").filterMap (fun p => (parse_property p).toOption)

/-! ### `Apartment.pages` and the pagination regex

The source matches `r'Page (\d+) of (\d)+'` with `re.search`.  Because the
pattern pieces are delimited by the literals `"Page "` and `" of "` (which
begin with non-digits), the greedy `(\d+)` always captures the maximal
digit run after `"Page "`, and the repeated single-character group
`(\d)+` consumes the maximal digit run after `" of "` but *captures only
its last repetition*, i.e. the last digit.  `re.search` takes the
leftmost position at which the pattern matches. -/

/-- The numeric value of a digit character (`int` on a digit). -/
def digToNat (c : Char) : Nat := c.toNat - 48

/-- Python `int` on a non-empty string of digits. -/
def natOfDigits (cs : List Char) : Nat :=
  cs.foldl (fun a c => a * 10 + digToNat c) 0

/-- Drops the literal `lit` from the front of `cs`, or fails. -/
def dropLit : List Char → List Char → Option (List Char)
  | [], cs => some cs
  | _ :: _, [] => none
  | a :: as, b :: bs => if a = b then dropLit as bs else none

/-- Attempts to match `Page (\d+) of (\d)+` at the start of `cs`,
returning `(group 1 as an integer, group 2 as an integer)`; group 2 is the
last digit of the second run (see above). -/
def matchPageRangeAt (cs : List Char) : Option (Nat × Nat) :=
  match dropLit "Page ".toList cs with
  | none => none
  | some r1 =>
    let d1 := r1.takeWhile Char.isDigit
    if d1.isEmpty then none
    else
      match dropLit " of ".toList (r1.dropWhile Char.isDigit) with
      | none => none
      | some r2 =>
        let d2 := r2.takeWhile Char.isDigit
        if d2.isEmpty then none
        else some (natOfDigits d1, digToNat (d2.getLastD '0'))

/-- `re.search` for the pagination pattern: try every start position from
the left. -/
def reSearchPageRange : List Char → Option (Nat × Nat)
  | [] => none
  | c :: rest =>
    match matchPageRangeAt (c :: rest) with
    | some r => some r
    | none => reSearchPageRange rest

/-- `Apartment.pages`, given page 1's markup: `find_all('span',
attrs={'class': 'pageRange'})`; `[1, 1]` when there is no such span or
the regex does not match; otherwise the two captured groups as integers.
`pages[0].contents[0]` (the head of the span's content chain) raises
`IndexError` on an empty span, and `re.search` raises `TypeError` when
that first content node is not a string. -/
def pages (page1 : Node) : Except String (List Nat) :=
  match findAllCls page1 "span" "pageRange" with
  | [] => .ok [1, 1]
  | p :: _ =>
    match elemChild p with
    | .nilN => .error "IndexError"
    | .text s _ =>
      match reSearchPageRange s.toList with
      | some (x, y) => .ok [x, y]
      | none => .ok [1, 1]
    | .elem _ _ _ _ _ => .error "TypeError"

/-! ### `Apartment.get_list`

`get_list` submits `get_page(p)` for every `p` in
`range(pages[0], pages[1] + 1)` to a fresh thread pool, then walks the
futures *in submission order* doing `ret.extend(r.result())`.  Each task's
value is a deterministic function of its page number, so the only
concurrency left to model is the order in which tasks finish; that order
is passed in as `completionOrder` (one entry per page).  `r.result()`
blocks until that specific task has finished and re-raises the task's
exception if it raised, so neither the values collected nor the
concatenation order depend on `completionOrder`, and the first exception
in submission order aborts the join. -/

/-- The join loop of `get_list`: `ret = []; for r in results:
ret.extend(r.result())` over the futures in submission order. -/
def get_list_go (fetch : Nat → Except String (List Post)) :
    List Nat → List Post → Except String (List Post)
  | [], acc => .ok acc
  | p :: rest, acc =>
    match fetch p with
    | .error e => .error e
    | .ok r => get_list_go fetch rest (acc ++ r)

/-- `Apartment.get_list`: one task per page of `range(first, last + 1)`,
joined in submission order (see `get_list_go`). -/
def get_list (fetch : Nat → Except String (List Post)) (first last : Nat)
    (completionOrder : List Nat) : Except String (List Post) :=
  let _ := completionOrder
  get_list_go fetch (List.range' first (last + 1 - first)) []

/-! ### `Yelp` -/

/-- A Yelp suggestion, read only for `.get("redirectUrl")`. -/
structure YelpSuggestion where
  redirectUrl : Option String

/-- One entry of the Yelp `GetSuggestions` response list, reduced along
the access path the source reads:
`entry.get("data", {}).get("searchSuggestFrontend", {})
.get("prefetchSuggestions", {}).get("suggestions", {})` collapses to the
suggestion list (empty when any level is missing). -/
structure YelpEntry where
  suggestions : List YelpSuggestion

/-- The value `Yelp.page_url` computes on its first read, as a function of
the suggestion response `data = response.json()`: start from the sentinel
`"Not found"`; when `data` is truthy and the first entry's suggestion list
is truthy and its first suggestion has a truthy `redirectUrl` (Python
truthiness: a `None` or empty string fails the test), prepend the site
origin to that redirect URL. -/
def yelpResolvePageUrl : List YelpEntry → String
  | [] => "Not found"
  | entry :: _ =>
    match entry.suggestions with
    | [] => "Not found"
    | s :: _ =>
      match s.redirectUrl with
      | none => "Not found"
      | some r => if r = "" then "Not found" else "https://www.yelp.com" ++ r

/-- One read of the memoized `Yelp.page_url` property: the stored value if
`_page_url` is set, otherwise resolve (issuing one network query) and
store.  Returns (value, new `_page_url`, network queries issued by this
read). -/
def yelpPageUrlRead (env : List YelpEntry) (s : Option String) :
    String × Option String × Nat :=
  match s with
  | some u => (u, some u, 0)
  | none => (yelpResolvePageUrl env, some (yelpResolvePageUrl env), 1)

/-- Total network queries issued by `n` successive reads of
`Yelp.page_url` on one instance whose `_page_url` field starts as `s`. -/
def yelpReadCalls (env : List YelpEntry) : Nat → Option String → Nat
  | 0, _ => 0
  | n + 1, s =>
    (yelpPageUrlRead env s).2.2 + yelpReadCalls env n (yelpPageUrlRead env s).2.1

/-- Searches a sibling chain (and descendants, in document order) for the
first `<a href="#reviews">` anchor, as `soup.find('a', href='#reviews')`
does, and returns it together with `anchor.parent.find_previous_sibling()`
(the nearest preceding *element* sibling of the anchor's parent, `None`
when there is none).  `prev` tracks the previous element sibling within
the current chain; `pprev` is the previous element sibling of the element
owning the current chain. -/
def findAnchorChain : Node → Option Node → Option Node → Option (Node × Option Node)
  | .nilN, _, _ => none
  | .text _ sib, prev, pprev => findAnchorChain sib prev pprev
  | .elem nm cs as child sib, prev, pprev =>
    if nm = "a" && lookupAttr as "href" = some "#reviews" then
      some (.elem nm cs as child sib, pprev)
    else
      match findAnchorChain child none prev with
      | some r => some r
      | none => findAnchorChain sib (some (.elem nm cs as child sib)) pprev

/-- `soup.find('a', href='#reviews')` over a whole fetched page, together
with the previous-element-sibling of the anchor's parent (the parent of a
top-level node is the soup itself, which has no siblings). -/
def soupFindAnchor (page : Node) : Option (Node × Option Node) :=
  findAnchorChain (elemChild page) none none

/-- The value `Yelp.review` computes on its first read, given the resolved
`page_url` and the fetched page's markup.  When the URL does not start
with `http`, the memo `_review = [None, None]` is returned untouched.
Otherwise the page is scraped: no `#reviews` anchor leaves
`[n_reviews, rating] = [None, None]`; with an anchor, `n_reviews` is the
anchor's text and `rating` is the stripped text of
`anchor.parent.find_previous_sibling()` — which raises `AttributeError`
(`None.text`) when that sibling does not exist. -/
def yelpFetchRating (page_url : String) (page : Node) :
    Except String (Option String × Option String) :=
  if pyStartsWith page_url "http" = false then .ok (none, none)
  else
    match soupFindAnchor page with
    | none => .ok (none, none)
    | some (anchor, prevSib) =>
      match prevSib with
      | none => .error "AttributeError"
      | some sibEl => .ok (some (elemText anchor), some (pyStrip (elemText sibEl)))

/-! ### `GoogleMap` -/

/-- A candidate of the places-search response, reduced to the fields the
source reads: `.get("rating")`, `.get("user_ratings_total")` (either may
be absent) and `["place_id"]` (requested in the field list and indexed
directly). -/
structure Candidate where
  rating : Option String
  user_ratings_total : Option String
  place_id : String
deriving DecidableEq

/-- The places-search response, read only for `.get("candidates")`. -/
structure PlaceResult where
  candidates : List Candidate
deriving DecidableEq

/-- The query-augmentation step of `GoogleMap.get_place_result`: when the
title does not contain `"apartment"` (case-insensitively), the expression
`query + " apartment in the bay area"` is evaluated — and discarded, since
the statement assigns nothing.  This definition is the discarded value
(`none` when the condition is false and nothing is computed). -/
def discardedAugmentation (query : String) : Option String :=
  if containsSub (pyLower query) "apartment" = false then
    some (query ++ " apartment in the bay area")
  else none

/-- The `input` actually passed to `gmaps.find_place` by
`GoogleMap.get_place_result`: `query = self.query` and the augmented
string is never assigned, so the raw query is sent unchanged. -/
def find_place_input (query : String) : String :=
  let _ := discardedAugmentation query
  query

/-- The mutable fields of a `GoogleMap` instance: `self.url` and
`self._rating = [rating_cnt, rating_avg]`. -/
structure GoogleMapState where
  url : Option String
  rating_cnt : Option String
  rating_avg : Option String
deriving DecidableEq

/-- A fresh `GoogleMap` instance: `url = None`, `_rating = [None, None]`. -/
def gmInit : GoogleMapState := ⟨none, none, none⟩

/-- One read of the memoized `GoogleMap.rating` property, given the
places-search response for the instance's query.  The query is issued only
when `_rating[0] is None`; with no candidates a warning is logged and the
state is unchanged (so the next read queries again); with a first
candidate, `url` and `_rating` are stored.  Returns (value, new state,
network queries issued by this read). -/
def gmRatingRead (env : PlaceResult) (s : GoogleMapState) :
    (Option String × Option String) × GoogleMapState × Nat :=
  if s.rating_cnt.isNone then
    match env.candidates with
    | [] => ((s.rating_cnt, s.rating_avg), s, 1)
    | c :: _ =>
      ((c.user_ratings_total, c.rating),
        ⟨some ("https://www.google.com/maps/place/?q=place_id:" ++ c.place_id),
          c.user_ratings_total, c.rating⟩, 1)
  else ((s.rating_cnt, s.rating_avg), s, 0)

/-- Total network queries issued by `n` successive reads of
`GoogleMap.rating` on one instance with state `s`. -/
def gmReadCalls (env : PlaceResult) : Nat → GoogleMapState → Nat
  | 0, _ => 0
  | n + 1, s =>
    (gmRatingRead env s).2.2 + gmReadCalls env n (gmRatingRead env s).2.1

/-! ### `crawl` -/

/-- `_get_google_result` from `crawl`: construct a fresh
`GoogleMap(post.title)`, read `google.rating` once and `google.url`, and
store `google_review, google_rating, google_link` on the post.  `gm` maps
a query to the places-search response for it. -/
def get_google_result (gm : String → PlaceResult) (post : Post) : Post :=
  let r := gmRatingRead (gm post.title) gmInit
  { post with google_review := r.1.1, google_rating := r.1.2, google_link := r.2.1.url }

/-- `crawl(url)`, given page 1's markup, the places-search service, and
the order in which the per-post enrichment tasks complete.  The source
takes `Apartment(url).get_page(1)[:3]` (the full `get_list` call is
commented out), submits one `_get_google_result` task per post (the Yelp
path is commented out), and collects `[fut.result() for fut in
futures.as_completed(google_futs)]` — i.e. in completion order.
`completionOrder` lists indices into the submitted futures in the order
they finish. -/
def crawl (markup : Node) (gm : String → PlaceResult) (completionOrder : List Nat) :
    List Post :=
  let posts := (get_page markup).take 3
  let enriched := posts.map (get_google_result gm)
  completionOrder.filterMap (fun i => enriched[i]?)

/-! ### `to_html` -/

/-- The fixed header rows of the table (`ret`'s first two elements). -/
def tableHead : List String :=
  ["<table style=\"width:100%\">",
   "\n           <tr>\n            <th>yelp_rating</th>\n            <th>yelp_review</th>\n            <th>google_rating</th>\n            <th>google_review</th>\n            <th>price</th>\n            <th>title</th>\n            <th>location</th>\n           </tr>\n           "]

/-- The f-string appended to `ret` for one post, with Python's rendering
of `None` as the text `None` (`pyStr`). -/
def postRow (post : Post) : String :=
  "\n                   <tr>\n                   <td>" ++ pyStr post.yelp_rating
    ++ "</td>\n                   <td><a href=\"" ++ pyStr post.yelp_link
    ++ "\">" ++ pyStr post.yelp_review
    ++ "</a></td>\n                   <td>" ++ pyStr post.google_rating
    ++ "</td>\n                   <td><a href=\"" ++ pyStr post.google_link
    ++ "\">" ++ pyStr post.google_review
    ++ "</a></td>\n                   <td>" ++ post.price
    ++ "</td>\n                   <td><a href=\"" ++ post.link
    ++ "\">" ++ post.title
    ++ "</a></td>\n                   <td>" ++ post.location
    ++ "</td>\n                   <tr/>"

/-- `to_html(posts)`: the header rows, one row per post, the closing tag,
joined with newlines. -/
def to_html (posts : List Post) : String :=
  pyJoin "\n" (tableHead ++ posts.map postRow ++ ["</table>"])

/-! ### Concrete inputs used by witnesses and counterexamples -/

/-- Page-1 markup whose pagination marker is `Page 3 of 28`. -/
def c1Markup : Node :=
  .elem "html" [] [] (.elem "span" ["pageRange"] [] (.text "Page 3 of 28" .nilN) .nilN) .nilN

/-- Page-1 markup with no pagination marker. -/
def c1NoMarker : Node :=
  .elem "html" [] [] (.elem "div" [] [] (.text "listings" .nilN) .nilN) .nilN

/-- A record whose review fields are all null. -/
def c2Post : Post :=
  ⟨none, none, none, none, none, none, "$1,234", "The Oaks", "1 Main St", "http://l/x"⟩

/-- A listing record distinct from `postB` and `postC`. -/
def postA : Post :=
  ⟨none, none, none, none, none, none, "$1", "A", "locA", "http://l/a"⟩

/-- A second distinct listing record. -/
def postB : Post :=
  ⟨none, none, none, none, none, none, "$2", "B", "locB", "http://l/b"⟩

/-- A third distinct listing record. -/
def postC : Post :=
  ⟨none, none, none, none, none, none, "$3", "C", "locC", "http://l/c"⟩

/-- A two-page fetch in which page 1 yields `postA` and page 2 `postB`. -/
def c3Fetch : Nat → Except String (List Post) :=
  fun p => if p = 1 then .ok [postA] else .ok [postB]

/-- A three-page fetch in which page 2's task raises and pages 1 and 3
succeed. -/
def c4Fetch : Nat → Except String (List Post) :=
  fun p => if p = 2 then .error "boom" else if p = 1 then .ok [postA] else .ok [postC]

/-- A Yelp suggestion response with one usable suggestion. -/
def c5YelpEnv : List YelpEntry := [⟨[⟨some "/biz/alpha"⟩]⟩]

/-- A places response whose first candidate carries a rating count. -/
def c5GoodEnv : PlaceResult := ⟨[⟨some "4.2", some "57", "pid9"⟩]⟩

/-- A places response whose first candidate has no rating count. -/
def c5NoCntEnv : PlaceResult := ⟨[⟨some "4.0", none, "pid0"⟩]⟩

/-- Page-1 markup with three listing cards. -/
def c6Markup : Node :=
  .elem "html" [] []
    (.elem "article" ["placard"] []
      (.elem "div" ["property-title"] [] (.text "Alpha Apartments" .nilN)
        (.elem "a" ["property-link"] [("href", "http://x/a")] .nilN .nilN))
      (.elem "article" ["placard"] []
        (.elem "div" ["property-title"] [] (.text "Beta Homes" .nilN)
          (.elem "a" ["property-link"] [("href", "http://x/b")] .nilN .nilN))
        (.elem "article" ["placard"] []
          (.elem "div" ["property-title"] [] (.text "Gamma Lofts" .nilN)
            (.elem "a" ["property-link"] [("href", "http://x/c")] .nilN .nilN))
          .nilN)))
    .nilN

/-- A places service returning the same single rated candidate for every
query. -/
def c6Gm : String → PlaceResult := fun _ => ⟨[⟨some "4.5", some "120", "pid1"⟩]⟩

/-- A fetched review page with no `#reviews` anchor. -/
def c7Page : Node :=
  .elem "html" [] [] (.elem "div" [] [] (.text "no reviews here" .nilN) .nilN) .nilN

/-- A specials block whose text is `" — 2 months free"`. -/
def c9Specials : Node :=
  .elem "p" ["property-specials"] [] (.text " — 2 months free" .nilN) .nilN

/-- A price paragraph followed by the specials block. -/
def c9Pricing : Node :=
  .elem "p" ["property-pricing"] [] (.text "$2,000/mo" .nilN) c9Specials

/-- A listing card with a price block and a specials block. -/
def c9Card : Node := .elem "article" ["placard"] [] c9Pricing .nilN

/-- A specials block whose text is whitespace only. -/
def c10Sp : Node := .elem "p" ["property-specials"] [] (.text "   " .nilN) .nilN

/-- A card with the whitespace-only specials block and no price markup. -/
def c10Card : Node := .elem "article" ["placard"] [] c10Sp .nilN

/-- A specials block with ordinary text. -/
def c10GoodSp : Node := .elem "p" ["property-specials"] [] (.text "2 weeks free" .nilN) .nilN

/-- A card with only the ordinary specials block. -/
def c10GoodCard : Node := .elem "article" ["placard"] [] c10GoodSp .nilN

/-! ## Shared lemmas -/

/-- Joining only successful page fetches concatenates them in page order. -/
theorem get_list_go_ok (f : Nat → List Post) :
    ∀ (ps : List Nat) (acc : List Post),
      get_list_go (fun p => .ok (f p)) ps acc = .ok (acc ++ ps.flatMap f) := by
  intro ps
  induction ps with
  | nil => intro acc; simp [get_list_go]
  | cons p rest ih => intro acc; simp [get_list_go, ih, List.append_assoc]

/-- The join loop re-raises the unique failing page's exception. -/
theorem get_list_go_error (fetch : Nat → Except String (List Post)) (p : Nat) (e : String) :
    ∀ (ps : List Nat) (acc : List Post), p ∈ ps → fetch p = .error e →
      (∀ q ∈ ps, q ≠ p → ∃ v, fetch q = .ok v) →
      get_list_go fetch ps acc = .error e := by
  intro ps
  induction ps with
  | nil => intro acc hp; exact absurd hp (List.not_mem_nil p)
  | cons q rest ih =>
    intro acc hp hfp hok
    by_cases hq : q = p
    · subst hq; simp [get_list_go, hfp]
    · obtain ⟨v, hv⟩ := hok q (List.mem_cons_self q rest) hq
      have hp' : p ∈ rest := by
        rcases List.mem_cons.mp hp with h | h
        · exact absurd h.symm hq
        · exact h
      simp [get_list_go, hv]
      exact ih (acc ++ v) hp' hfp (fun q' hq' => hok q' (List.mem_cons_of_mem q hq'))

/-! ## C1 -/

/-- Claim C1: the pagination pattern is `Page (\d+) of (\d)+`, whose second
group captures only the last digit of the page count; on the marker
`Page 3 of 28`, `pages` yields `[3, 8]`, not the `[3, 28]` the claim
states (markup without a marker does yield `[1, 1]`). -/
theorem pages_regex_truncates_last_group :
    pages c1Markup = .ok [3, 8]
    ∧ pages c1NoMarker = .ok [1, 1]
    ∧ (Except.ok [3, 8] : Except String (List Nat)) ≠ .ok [3, 28] := by
  refine ⟨rfl, rfl, fun h => ?_⟩
  injection h with h1
  exact absurd h1 (by decide)

/-! ## C2 -/

/-- Claim C2 (corrected): rendering a record whose review fields are null
never throws, but the produced cells are not empty — the f-string
interpolates Python `None` as the text `None` in each such cell. -/
theorem to_html_none_renders_none_text (yl gl : Option String)
    (price title location link : String) :
    postRow ⟨none, none, yl, none, none, gl, price, title, location, link⟩
      = "\n                   <tr>\n                   <td>" ++ "None"
        ++ "</td>\n                   <td><a href=\"" ++ pyStr yl
        ++ "\">" ++ "None"
        ++ "</a></td>\n                   <td>" ++ "None"
        ++ "</td>\n                   <td><a href=\"" ++ pyStr gl
        ++ "\">" ++ "None"
        ++ "</a></td>\n                   <td>" ++ price
        ++ "</td>\n                   <td><a href=\"" ++ link
        ++ "\">" ++ title
        ++ "</a></td>\n                   <td>" ++ location
        ++ "</td>\n                   <tr/>"
    ∧ ∀ p : Post, to_html [p]
        = "<table style=\"width:100%\">" ++ "\n"
          ++ "\n           <tr>\n            <th>yelp_rating</th>\n            <th>yelp_review</th>\n            <th>google_rating</th>\n            <th>google_review</th>\n            <th>price</th>\n            <th>title</th>\n            <th>location</th>\n           </tr>\n           " ++ "\n"
          ++ postRow p ++ "\n" ++ "</table>" :=
  ⟨rfl, fun _ => rfl⟩

set_option maxRecDepth 100000 in
/-- Counterexample to claim C2 as stated: on a record with null review
fields the table contains the cell text `None` and no empty cell at all. -/
theorem to_html_no_empty_cells :
    containsSub (to_html [c2Post]) "<td>None</td>" = true
    ∧ containsSub (to_html [c2Post]) "<td></td>" = false := by decide

/-! ## C3 -/

/-- Claim C3 (corrected): `get_list` submits one task per page of the
range and, because the join calls `r.result()` on the futures in
submission order, concatenates the per-page listings in page order,
whatever the completion order was. -/
theorem get_list_page_order (f : Nat → List Post) (first last : Nat)
    (completionOrder : List Nat) :
    get_list (fun p => .ok (f p)) first last completionOrder
      = .ok ((List.range' first (last + 1 - first)).flatMap f) := by
  simpa using get_list_go_ok f (List.range' first (last + 1 - first)) []

/-- Counterexample to claim C3 as stated: with pages 1 and 2 and the
completion order `[2, 1]` (page 2 finishing first), the output is still
the page-order concatenation, not the completion-order one. -/
theorem get_list_ignores_completion_order :
    get_list c3Fetch 1 2 [2, 1] = .ok [postA, postB]
    ∧ [postA, postB] ≠ [postB, postA] :=
  ⟨rfl, by decide⟩

/-! ## C4 -/

/-- Claim C4 (corrected): when exactly one page of the range fails,
`get_list` does not return the other pages' listings — the failing task's
exception is re-raised at its `result()` call and aborts the join. -/
theorem get_list_error_propagates (fetch : Nat → Except String (List Post))
    (first last : Nat) (completionOrder : List Nat) (p : Nat) (e : String)
    (hp : p ∈ List.range' first (last + 1 - first))
    (hfp : fetch p = .error e)
    (hok : ∀ q ∈ List.range' first (last + 1 - first), q ≠ p → ∃ v, fetch q = .ok v) :
    get_list fetch first last completionOrder = .error e :=
  get_list_go_error fetch p e (List.range' first (last + 1 - first)) [] hp hfp hok

/-- Counterexample to claim C4 as stated: three pages, page 2 failing,
pages 1 and 3 succeeding — the whole call raises instead of returning the
two surviving pages' listings. -/
theorem get_list_loses_siblings :
    get_list c4Fetch 1 3 [1, 2, 3] = .error "boom"
    ∧ (Except.error "boom" : Except String (List Post)) ≠ .ok [postA, postC] :=
  ⟨rfl, fun h => Except.noConfusion h⟩

/-- Witness for `get_list_error_propagates` at the concrete three-page
fetch. -/
theorem get_list_error_propagates_witness :
    get_list c4Fetch 1 3 [3, 1, 2] = .error "boom" := by
  refine get_list_error_propagates c4Fetch 1 3 [3, 1, 2] 2 "boom" (by decide) rfl ?_
  intro q hq hne
  fin_cases hq
  · exact ⟨[postA], rfl⟩
  · exact absurd rfl hne
  · exact ⟨[postC], rfl⟩

/-! ## C5 -/

/-- Once `_page_url` is populated, further reads never query. -/
theorem yelpReadCalls_of_some (env : List YelpEntry) (u : String) :
    ∀ n, yelpReadCalls env n (some u) = 0 := by
  intro n
  induction n with
  | zero => rfl
  | succ n ih => simp [yelpReadCalls, yelpPageUrlRead, ih]

/-- Once `_rating[0]` is populated, further reads never query. -/
theorem gmReadCalls_of_some (env : PlaceResult) (s : GoogleMapState)
    (h : s.rating_cnt.isSome) : ∀ n, gmReadCalls env n s = 0 := by
  intro n
  induction n with
  | zero => rfl
  | succ n ih =>
    have h' : s.rating_cnt.isNone = false := by
      cases hc : s.rating_cnt
      · rw [hc] at h; exact absurd h (by decide)
      · rfl
    simp [gmReadCalls, gmRatingRead, h', ih]

/-- While the response never supplies a rating count, every read queries. -/
theorem gmReadCalls_of_none (env : PlaceResult)
    (hc : ∀ c cs, env.candidates = c :: cs → c.user_ratings_total = none) :
    ∀ n (s : GoogleMapState), s.rating_cnt = none → gmReadCalls env n s = n := by
  intro n
  induction n with
  | zero => intro s _; rfl
  | succ n ih =>
    intro s hs
    cases hcand : env.candidates with
    | nil =>
      have : gmReadCalls env n s = n := ih s hs
      simp [gmReadCalls, gmRatingRead, hs, hcand, this, Nat.add_comm]
    | cons c cs =>
      have hcnt : c.user_ratings_total = none := hc c cs hcand
      have : gmReadCalls env n
          ⟨some ("https://www.google.com/maps/place/?q=place_id:" ++ c.place_id),
            c.user_ratings_total, c.rating⟩ = n := ih _ hcnt
      simp [gmReadCalls, gmRatingRead, hs, hcand, this, Nat.add_comm]

/-- Claim C5 (corrected): `Yelp.page_url` queries at most once however
often it is read and whatever the outcome (the sentinel is memoized too);
`GoogleMap.rating` queries at most once only when the first read stores a
rating count, and re-queries on every read when the response yields no
candidates or a count-less candidate. -/
theorem review_source_memoization :
    (∀ (env : List YelpEntry) (n : Nat), yelpReadCalls env n none ≤ 1)
    ∧ (∀ (env : PlaceResult) (c : Candidate) (cs : List Candidate) (n : Nat),
        env.candidates = c :: cs → c.user_ratings_total.isSome →
        gmReadCalls env n gmInit ≤ 1)
    ∧ (∀ (env : PlaceResult) (n : Nat),
        (∀ c cs, env.candidates = c :: cs → c.user_ratings_total = none) →
        gmReadCalls env n gmInit = n) := by
  refine ⟨fun env n => ?_, fun env c cs n hc hcnt => ?_, fun env n hc => ?_⟩
  · cases n with
    | zero => exact Nat.zero_le 1
    | succ n =>
      simp [yelpReadCalls, yelpPageUrlRead, yelpReadCalls_of_some]
  · cases n with
    | zero => exact Nat.zero_le 1
    | succ n =>
      have h2 : (⟨some ("https://www.google.com/maps/place/?q=place_id:" ++ c.place_id),
          c.user_ratings_total, c.rating⟩ : GoogleMapState).rating_cnt.isSome := hcnt
      simp [gmReadCalls, gmRatingRead, gmInit, hc, gmReadCalls_of_some _ _ h2]
  · exact gmReadCalls_of_none env hc n gmInit rfl

/-- Counterexample to claim C5 as stated: a `GoogleMap` instance whose
query matched nothing issues one network query per read — two reads, two
queries. -/
theorem gm_requeries_after_no_match :
    gmReadCalls ⟨[]⟩ 2 gmInit = 2 ∧ ¬ gmReadCalls ⟨[]⟩ 2 gmInit ≤ 1 := by decide

/-- Witness for `review_source_memoization` at concrete responses. -/
theorem review_source_memoization_witness :
    yelpReadCalls c5YelpEnv 3 none ≤ 1
    ∧ gmReadCalls c5GoodEnv 3 gmInit ≤ 1
    ∧ gmReadCalls c5NoCntEnv 3 gmInit = 3 :=
  ⟨review_source_memoization.1 c5YelpEnv 3,
   review_source_memoization.2.1 c5GoodEnv ⟨some "4.2", some "57", "pid9"⟩ [] 3 rfl rfl,
   review_source_memoization.2.2 c5NoCntEnv 3 (by
     intro c cs h
     injection h with h1 h2
     rw [← h1])⟩

/-! ## C6 -/

/-- Indexing a list by `range` of its length reproduces the list. -/
theorem range_filterMap_getElem {α : Type} (xs : List α) :
    (List.range xs.length).filterMap (fun i => xs[i]?) = xs := by
  induction xs with
  | nil => rfl
  | cons x xs ih =>
    rw [List.length_cons, List.range_succ_eq_map, List.filterMap_cons]
    have hcomp : ((fun i => (x :: xs)[i]?) ∘ Nat.succ) = (fun i => xs[i]?) := by
      funext i
      simp
    simp only [List.getElem?_cons_zero, List.filterMap_map, hcomp, ih]

/-- Gathering futures by a completion order that is a permutation of the
indices yields a permutation of the tasks' results. -/
theorem filterMap_getElem_perm {α : Type} (xs : List α) (ord : List Nat)
    (h : ord.Perm (List.range xs.length)) :
    (ord.filterMap (fun i => xs[i]?)).Perm xs := by
  have hp := h.filterMap (fun i => xs[i]?)
  rwa [range_filterMap_getElem] at hp

/-- A successfully parsed card has all six review fields null. -/
theorem parse_property_review_none (card : Node) (p : Post)
    (h : parse_property card = .ok p) :
    p.yelp_review = none ∧ p.yelp_rating = none ∧ p.yelp_link = none
    ∧ p.google_review = none ∧ p.google_rating = none ∧ p.google_link = none := by
  unfold parse_property at h
  split at h
  · exact Except.noConfusion h
  · split at h
    · exact Except.noConfusion h
    · split at h
      · exact Except.noConfusion h
      · injection h with h1
        subst h1
        exact ⟨rfl, rfl, rfl, rfl, rfl, rfl⟩

/-- Every record produced by `get_page` has null review fields. -/
theorem get_page_review_none (markup : Node) (p : Post) (h : p ∈ get_page markup) :
    p.yelp_review = none ∧ p.yelp_rating = none ∧ p.yelp_link = none := by
  unfold get_page at h
  obtain ⟨card, _, hcard⟩ := List.mem_filterMap.mp h
  have hok : parse_property card = .ok p := by
    cases he : parse_property card with
    | error e => rw [he] at hcard; exact Option.noConfusion hcard
    | ok q =>
      rw [he] at hcard
      exact congrArg Except.ok (Option.some.inj hcard)
  have hf := parse_property_review_none card p hok
  exact ⟨hf.1, hf.2.1, hf.2.2.1⟩

/-- Enrichment against a response with candidates stores the first
candidate's data and does not touch the Yelp fields. -/
theorem get_google_result_fields (gm : String → PlaceResult) (post : Post)
    (c : Candidate) (cs : List Candidate) (hc : (gm post.title).candidates = c :: cs) :
    (get_google_result gm post).google_review = c.user_ratings_total
    ∧ (get_google_result gm post).google_rating = c.rating
    ∧ (get_google_result gm post).google_link
        = some ("https://www.google.com/maps/place/?q=place_id:" ++ c.place_id)
    ∧ (get_google_result gm post).yelp_review = post.yelp_review
    ∧ (get_google_result gm post).yelp_rating = post.yelp_rating
    ∧ (get_google_result gm post).yelp_link = post.yelp_link := by
  simp [get_google_result, gmRatingRead, gmInit, hc]

/-- Claim C6: with at least three cards on page 1 and a places service
that returns a rated candidate for every query, `crawl` returns exactly
the first three listings of page 1, enriched with non-null mapping fields
and untouched null Yelp fields, in completion order (a permutation of the
enriched records). -/
theorem crawl_enriches_first_three (markup : Node) (gm : String → PlaceResult)
    (ord : List Nat)
    (hcards : 3 ≤ (get_page markup).length)
    (hord : ord.Perm (List.range 3))
    (hgm : ∀ q, ∃ c cs, (gm q).candidates = c :: cs
        ∧ c.rating.isSome = true ∧ c.user_ratings_total.isSome = true) :
    (crawl markup gm ord).length = 3
    ∧ (crawl markup gm ord).Perm (((get_page markup).take 3).map (get_google_result gm))
    ∧ ∀ p ∈ crawl markup gm ord,
        p.google_rating.isSome = true ∧ p.google_review.isSome = true
        ∧ p.google_link.isSome = true
        ∧ p.yelp_rating = none ∧ p.yelp_review = none ∧ p.yelp_link = none := by
  have hlen3 : (((get_page markup).take 3).map (get_google_result gm)).length = 3 := by
    rw [List.length_map, List.length_take]
    omega
  have hperm : (crawl markup gm ord).Perm
      (((get_page markup).take 3).map (get_google_result gm)) := by
    apply filterMap_getElem_perm
    rw [hlen3]
    exact hord
  refine ⟨by rw [hperm.length_eq, hlen3], hperm, ?_⟩
  intro p hp
  have hpmem : p ∈ ((get_page markup).take 3).map (get_google_result gm) :=
    hperm.mem_iff.mp hp
  obtain ⟨p0, hp0mem, hp0⟩ := List.mem_map.mp hpmem
  have hp0page : p0 ∈ get_page markup := List.take_subset 3 _ hp0mem
  obtain ⟨hyr, hyrat, hyl⟩ := get_page_review_none markup p0 hp0page
  obtain ⟨c, cs, hc, hrat, hcnt⟩ := hgm p0.title
  have hf := get_google_result_fields gm p0 c cs hc
  subst hp0
  refine ⟨?_, ?_, ?_, ?_, ?_, ?_⟩
  · rw [hf.2.1]; exact hrat
  · rw [hf.1]; exact hcnt
  · rw [hf.2.2.1]; rfl
  · rw [hf.2.2.2.2.1]; exact hyrat
  · rw [hf.2.2.2.1]; exact hyr
  · rw [hf.2.2.2.2.2]; exact hyl

/-- Witness for `crawl_enriches_first_three` at a three-card page, a
constant rated places service, and completion order `[2, 0, 1]`. -/
theorem crawl_enriches_first_three_witness :
    (crawl c6Markup c6Gm [2, 0, 1]).length = 3 :=
  (crawl_enriches_first_three c6Markup c6Gm [2, 0, 1] (by decide) (by decide)
    (fun _ => ⟨⟨some "4.5", some "120", "pid1"⟩, [], rfl, rfl, rfl⟩)).1

/-! ## C7 -/

/-- Claim C7: `page_url` is either the site origin prepended to the first
suggestion's redirect URL or the sentinel `"Not found"`; and `review`
yields `[None, None]` without raising whenever the resolved URL is not an
http(s) link or the fetched page has no `#reviews` anchor. -/
theorem yelp_resolution_and_rating :
    (∀ env : List YelpEntry,
       (∃ entry rest s srest r, env = entry :: rest
          ∧ entry.suggestions = s :: srest
          ∧ s.redirectUrl = some r
          ∧ yelpResolvePageUrl env = "https://www.yelp.com" ++ r)
       ∨ yelpResolvePageUrl env = "Not found")
    ∧ (∀ (u : String) (page : Node), pyStartsWith u "http" = false →
         yelpFetchRating u page = .ok (none, none))
    ∧ (∀ (u : String) (page : Node), soupFindAnchor page = none →
         yelpFetchRating u page = .ok (none, none)) := by
  refine ⟨fun env => ?_, fun u page h => ?_, fun u page h => ?_⟩
  · cases env with
    | nil => exact Or.inr rfl
    | cons entry rest =>
      cases hs : entry.suggestions with
      | nil => exact Or.inr (by simp [yelpResolvePageUrl, hs])
      | cons s srest =>
        cases hr : s.redirectUrl with
        | none => exact Or.inr (by simp [yelpResolvePageUrl, hs, hr])
        | some r =>
          by_cases hre : r = ""
          · exact Or.inr (by simp [yelpResolvePageUrl, hs, hr, hre])
          · exact Or.inl ⟨entry, rest, s, srest, r, rfl, hs, hr,
              by simp [yelpResolvePageUrl, hs, hr, hre]⟩
  · simp [yelpFetchRating, h]
  · rcases Bool.eq_false_or_eq_true (pyStartsWith u "http") with hb | hb <;>
      simp [yelpFetchRating, h, hb]

/-- Witness for `yelp_resolution_and_rating`: a sentinel URL and an http
URL against a page with no `#reviews` anchor. -/
theorem yelp_resolution_and_rating_witness :
    yelpFetchRating "Not found" c7Page = .ok (none, none)
    ∧ yelpFetchRating "https://www.yelp.com/biz/x" c7Page = .ok (none, none) :=
  ⟨yelp_resolution_and_rating.2.1 "Not found" c7Page rfl,
   yelp_resolution_and_rating.2.2 "https://www.yelp.com/biz/x" c7Page rfl⟩

/-! ## C8 -/

/-- Claim C8: the query-augmentation step computes the suffixed query when
the title lacks the keyword, but the value is discarded and `find_place`
always receives the raw title. -/
theorem find_place_query_unaugmented (q : String) :
    find_place_input q = q
    ∧ ∀ aug, discardedAugmentation q = some aug →
        aug = q ++ " apartment in the bay area" ∧ find_place_input q ≠ aug := by
  refine ⟨rfl, fun aug h => ?_⟩
  unfold discardedAugmentation at h
  split at h
  · have haug : q ++ " apartment in the bay area" = aug := Option.some.inj h
    refine ⟨haug.symm, fun he => ?_⟩
    have he2 : q = q ++ " apartment in the bay area" := he.trans haug.symm
    have hlen := congrArg String.length he2
    rw [String.length_append] at hlen
    have h26 : (" apartment in the bay area" : String).length = 26 := rfl
    rw [h26] at hlen
    omega
  · exact Option.noConfusion h

/-- Witness for `find_place_query_unaugmented` at a keyword-free title. -/
theorem find_place_query_unaugmented_witness :
    find_place_input "Skyline Towers" = "Skyline Towers"
    ∧ "Skyline Towers apartment in the bay area" ≠ "Skyline Towers" :=
  ⟨(find_place_query_unaugmented "Skyline Towers").1,
   fun he => ((find_place_query_unaugmented "Skyline Towers").2
     "Skyline Towers apartment in the bay area" rfl).2 he.symm⟩

/-! ## C9 -/

/-- A list is a prefix of itself followed by anything. -/
theorem isPrefixL_self_append : ∀ (l r : List Char), isPrefixL l (l ++ r) = true := by
  intro l r
  induction l with
  | nil => rfl
  | cons a l ih => simp [isPrefixL, ih]

/-- Appending `b` makes `b` a suffix. -/
theorem strEndsWith_append (a b : String) : strEndsWith (a ++ b) b = true := by
  show isPrefixL b.data.reverse (a ++ b).data.reverse = true
  rw [String.data_append, List.reverse_append]
  exact isPrefixL_self_append b.data.reverse a.data.reverse

/-- Claim C9: the price falls back through the three markup shapes in
order (with bs4 truthiness: an absent or empty tag falls through), is
empty when none is usable and no specials block is, and a truthy specials
block with text `" — 2 months free"` next to a usable price block makes
the price the block's text followed by a single space and the stripped
specials text — i.e. the price ends with `" — 2 months free"`. -/
theorem price_extraction (card : Node) :
    (pyTruthy (findCls card "p" "property-pricing") = true →
       price_tag card = findCls card "p" "property-pricing")
    ∧ (pyTruthy (findCls card "p" "property-pricing") = false →
       pyTruthy (findCls card "span" "property-rents") = true →
       price_tag card = findCls card "span" "property-rents")
    ∧ (pyTruthy (findCls card "p" "property-pricing") = false →
       pyTruthy (findCls card "span" "property-rents") = false →
       price_tag card = findCls card "div" "price-range")
    ∧ (pyTruthy (price_tag card) = false →
       pyTruthy (findCls card "p" "property-specials") = false →
       get_price card = "")
    ∧ (∀ t sp, price_tag card = some t → pyTruthy (some t) = true →
       findCls card "p" "property-specials" = some sp →
       pyTruthy (some sp) = true →
       elemText sp = " — 2 months free" →
       get_price card = elemText t ++ " — 2 months free"
         ∧ strEndsWith (get_price card) " — 2 months free" = true) := by
  refine ⟨?_, ?_, ?_, ?_, ?_⟩
  · intro h
    simp [price_tag, pyOrN, h]
  · intro hA hB
    simp [price_tag, pyOrN, hA, hB]
  · intro hA hB
    simp [price_tag, pyOrN, hA, hB]
  · intro hpt hsp
    cases hx : price_tag card with
    | none =>
      cases hy : findCls card "p" "property-specials" with
      | none => simp [get_price, hx, hy]
      | some sp =>
        have hspf : pyTruthy (some sp) = false := hy ▸ hsp
        simp [get_price, hx, hy, hspf]
    | some t =>
      have htf : pyTruthy (some t) = false := hx ▸ hpt
      cases hy : findCls card "p" "property-specials" with
      | none => simp [get_price, hx, hy, htf]
      | some sp =>
        have hspf : pyTruthy (some sp) = false := hy ▸ hsp
        simp [get_price, hx, hy, htf, hspf]
  · intro t sp hpt htt hsp hstt htext
    have hstrip : pyStrip " — 2 months free" = "— 2 months free" := rfl
    have hval : get_price card = elemText t ++ " " ++ pyStrip (elemText sp) := by
      simp [get_price, hpt, htt, hsp, hstt]
    rw [htext, hstrip] at hval
    have heq : get_price card = elemText t ++ " — 2 months free" := by
      rw [hval, String.append_assoc]
      rfl
    refine ⟨heq, ?_⟩
    rw [heq]
    exact strEndsWith_append (elemText t) " — 2 months free"

/-- Witness for `price_extraction` at a card with a `$2,000/mo` price
block and the 2-months-free specials block. -/
theorem price_extraction_witness :
    get_price c9Card = "$2,000/mo" ++ " — 2 months free" :=
  ((price_extraction c9Card).2.2.2.2 c9Pricing c9Specials rfl rfl rfl rfl rfl).1

/-! ## C10 -/

/-- The head surviving a `dropWhile` fails the predicate. -/
theorem dropWhile_head_false (p : Char → Bool) :
    ∀ (l : List Char) (c : Char) (rest : List Char),
      l.dropWhile p = c :: rest → p c = false := by
  intro l
  induction l with
  | nil =>
    intro c rest h
    exact absurd h (by simp [List.dropWhile])
  | cons a l ih =>
    intro c rest h
    rw [List.dropWhile_cons] at h
    by_cases hp : p a
    · rw [if_pos hp] at h
      exact ih c rest h
    · rw [if_neg hp] at h
      have ha : a = c := (List.cons.injEq _ _ _ _ ▸ h).1
      rw [← ha]
      exact Bool.of_not_eq_true hp

/-- The first character of a stripped string is not whitespace. -/
theorem pyStrip_head_not_ws (s : String) (c : Char) (rest : List Char)
    (h : (pyStrip s).toList = c :: rest) : c.isWhitespace = false := by
  have h' : pyStripList s.toList = c :: rest := h
  unfold pyStripList at h'
  have hsuf : (s.toList.dropWhile Char.isWhitespace).reverse.dropWhile Char.isWhitespace
      <:+ (s.toList.dropWhile Char.isWhitespace).reverse := List.dropWhile_suffix _
  have hpre : ((s.toList.dropWhile Char.isWhitespace).reverse.dropWhile
        Char.isWhitespace).reverse <+: s.toList.dropWhile Char.isWhitespace := by
    have h2 := List.reverse_prefix.mpr hsuf
    rwa [List.reverse_reverse] at h2
  rw [h'] at hpre
  obtain ⟨t, ht⟩ := hpre
  refine dropWhile_head_false Char.isWhitespace s.toList c (rest ++ t) ?_
  rw [← ht]
  simp

/-- Claim C10 (amended): with a truthy specials block and none of the
three price shapes, the price is a single space followed by the stripped
specials text, hence non-empty; and when the stripped text is itself
non-empty the price does not start with it (it starts with the space). -/
theorem specials_only_price (card sp : Node)
    (h1 : findCls card "p" "property-pricing" = none)
    (h2 : findCls card "span" "property-rents" = none)
    (h3 : findCls card "div" "price-range" = none)
    (hsp : findCls card "p" "property-specials" = some sp)
    (htr : pyTruthy (some sp) = true) :
    get_price card = " " ++ pyStrip (elemText sp)
    ∧ get_price card ≠ ""
    ∧ (pyStrip (elemText sp) ≠ "" →
        pyStartsWith (get_price card) (pyStrip (elemText sp)) = false) := by
  have hpt : price_tag card = none := by
    simp [price_tag, pyOrN, h1, h2, h3, pyTruthy]
  have hgp : get_price card = " " ++ pyStrip (elemText sp) := by
    simp [get_price, hpt, hsp, htr]
  refine ⟨hgp, ?_, ?_⟩
  · rw [hgp]
    intro he
    have hlen := congrArg String.length he
    rw [String.length_append] at hlen
    have hsp1 : (" " : String).length = 1 := rfl
    have hemp : ("" : String).length = 0 := rfl
    rw [hsp1, hemp] at hlen
    omega
  · intro hne
    rw [hgp]
    cases hx : (pyStrip (elemText sp)).toList with
    | nil =>
      have : pyStrip (elemText sp) = "" := String.ext hx
      exact absurd this hne
    | cons c rest =>
      have hcw : c.isWhitespace = false := pyStrip_head_not_ws (elemText sp) c rest hx
      have hcne : ¬ (c = ' ') := by
        intro hceq
        rw [hceq] at hcw
        exact absurd hcw (by decide)
      unfold pyStartsWith
      have hdata : (" " ++ pyStrip (elemText sp)).toList
          = ' ' :: (pyStrip (elemText sp)).toList := by
        show (" " ++ pyStrip (elemText sp)).data = ' ' :: (pyStrip (elemText sp)).data
        rw [String.data_append]
        rfl
      rw [hdata, hx]
      simp [isPrefixL, hcne]

/-- Counterexample to claim C10 as stated: a card whose specials text is
whitespace-only has price `" "`, which does start with the stripped
specials text (the empty string is a prefix of everything). -/
theorem specials_only_price_cex :
    get_price c10Card = " "
    ∧ pyStrip (elemText c10Sp) = ""
    ∧ pyStartsWith (get_price c10Card) (pyStrip (elemText c10Sp)) = true
    ∧ findCls c10Card "p" "property-pricing" = none
    ∧ findCls c10Card "span" "property-rents" = none
    ∧ findCls c10Card "div" "price-range" = none
    ∧ findCls c10Card "p" "property-specials" = some c10Sp := by decide

/-- Witness for `specials_only_price` at a card whose only block is an
ordinary specials paragraph. -/
theorem specials_only_price_witness :
    get_price c10GoodCard = " 2 weeks free"
    ∧ pyStartsWith (get_price c10GoodCard) "2 weeks free" = false :=
  have h := specials_only_price c10GoodCard c10GoodSp rfl rfl rfl rfl rfl
  ⟨h.1, h.2.2 (by decide)⟩

end Housing
